import Mathlib

/-!
# Verification of `grpc_server/server.go` (ifrit gRPC runner)

Shallow embedding of the single source file `src/grpc_server/server.go`.
The file defines a `grpcServerRunner` descriptor, a reflection-based
constructor `NewGRPCServer`, and a `Run` method that binds a listener,
builds TLS server options, registers the handler, serves on a goroutine,
closes the `ready` channel, waits on a select between the external signal
channel and an internal serve-error channel, then calls `GracefulStop`.

The embedding models:
* the fragment of Go's reflection type universe that the constructor
  inspects (function types with parameter/result lists, the exact type
  `*grpc.Server`, interface types with method sets, other named types);
* `NewGRPCServer` as a function into `Except PanicMsg grpcServerRunner`
  (a `log.Panicf` call, or a reflection panic, is an `error` value);
* `Run` as a pure function of the descriptor and an environment (the
  result of `net.Listen` and the winner of the final `select`), returning
  the ordered trace of the side-effecting steps it performs, the returned
  Go error, and the receiver value after the call;
* the goroutine / unbuffered-channel / select race of lines 89-101 as a
  small-step state machine, to settle the concurrency claim.
-/

/-- The subset of `reflect.Kind` that the constructor's checks distinguish. -/
inductive GoKind where
  | funcKind
  | ptrKind
  | ifaceKind
  | otherKind
deriving DecidableEq, Repr

/-- The fragment of Go's type universe inspected by `NewGRPCServer`:
the exact pointer type `*grpc.Server` (line 53 compares against
`reflect.TypeOf((*grpc.Server)(nil))`), function types with their
parameter and result type lists (lines 39-50 inspect `Kind`, `NumIn`,
`NumOut`), interface types carrying their required method set, and other
named concrete types carrying their method set (line 59 calls
`handlerType.Implements(registrarType.In(1))`, which in Go is a method-set
inclusion test). Method names stand for full method signatures. -/
inductive GoType where
  | ptrGrpcServer : GoType
  | func (ins outs : List GoType) : GoType
  | iface (methods : List String) : GoType
  | named (name : String) (methods : List String) : GoType

/-- `reflect.Kind` of a type in the modelled fragment. -/
def GoType.kind : GoType → GoKind
  | .ptrGrpcServer => .ptrKind
  | .func _ _ => .funcKind
  | .iface _ => .ifaceKind
  | .named _ _ => .otherKind

/-- The method set Go's reflection reports for a type in the fragment
(`*grpc.Server`'s own methods never matter to the checks, and Go func
types have no methods). -/
def GoType.methodSet : GoType → List String
  | .ptrGrpcServer => []
  | .func _ _ => []
  | .iface ms => ms
  | .named _ ms => ms

/-- Type identity against the fixed type `*grpc.Server`, deciding the
comparison `reflect.TypeOf((*grpc.Server)(nil)) != registrarType.In(0)`
of line 53. -/
def GoType.isPtrGrpcServer : GoType → Bool
  | .ptrGrpcServer => true
  | _ => false

/-- A Go `interface{}` value as the constructor sees it: `none` models the
nil interface value (for which `reflect.ValueOf` yields the zero
`reflect.Value`), `some t` a non-nil value of dynamic type `t`. Only the
dynamic type is inspected by the source. -/
structure GoIfaceValue where
  type : Option GoType

/-- The distinct panics `NewGRPCServer` can raise: the reflection panic
from calling `Type` on the zero `reflect.Value` (nil argument), the
reflection panic from calling `Implements` with a non-interface argument,
and the four `log.Panicf` messages of lines 40, 44, 48, 54, 60. -/
inductive PanicMsg where
  | reflectZeroValueType
  | implementsOnNonInterface (u : GoType)
  | registrarNotFunc (k : GoKind)
  | registrarBadNumIn (n : Nat)
  | registrarBadNumOut (n : Nat)
  | registrarFirstParamNotGrpcServer (t : GoType)
  | handlerDoesNotImplement (required handlerType : GoType)

/-- `reflect.ValueOf(v).Type()`: panics on the zero `reflect.Value`
(i.e. when `v` is the nil interface value). -/
def reflectTypeOf (v : GoIfaceValue) : Except PanicMsg GoType :=
  match v.type with
  | none => .error .reflectZeroValueType
  | some t => .ok t

/-- Opaque stand-in for `*tls.Config`; distinct values exist but the
source never inspects the contents. -/
structure TLSConf where
  id : Nat
deriving DecidableEq, Repr

/-- Opaque stand-in for `credentials.TransportCredentials`; records the
`tls.Config` it was derived from. -/
structure TransportCredentials where
  config : TLSConf
deriving DecidableEq, Repr

/-- `credentials.NewTLS`. -/
def NewTLS (c : TLSConf) : TransportCredentials := ⟨c⟩

/-- `grpc.ServerOption`: the only option the source ever builds is
`grpc.Creds(...)` (line 83). -/
inductive ServerOption where
  | creds (c : TransportCredentials)
deriving DecidableEq, Repr

/-- The descriptor struct `grpcServerRunner` (lines 14-19); a nil
`*tls.Config` is `none`. -/
structure grpcServerRunner where
  listenAddress : String
  handler : GoIfaceValue
  serverRegistrar : GoIfaceValue
  tlsConfig : Option TLSConf

/-- `handlerType.Implements(u)` (line 59): Go's `reflect.Type.Implements`
panics when `u` is not an interface type; otherwise it reports whether
`u`'s method set is included in the receiver type's method set. -/
def goImplements (t u : GoType) : Except PanicMsg Bool :=
  match u with
  | .iface ms => .ok (ms.all (fun m => m ∈ t.methodSet))
  | _ => .error (.implementsOnNonInterface u)

/-- `NewGRPCServer` (lines 31-70). `reflect.ValueOf(...).Type()` is taken
first for the registrar (line 35), then for the handler (line 36); the
shape checks then run in source order: `Kind`, `NumIn`, `NumOut`, `In(0)`
equality with `*grpc.Server`, and `Implements` on `In(1)`. Each
`log.Panicf` (and each reflection panic) is modelled as an `error`. -/
def NewGRPCServer (listenAddress : String) (tlsConfig : Option TLSConf)
    (handler serverRegistrar : GoIfaceValue) :
    Except PanicMsg grpcServerRunner :=
  match reflectTypeOf serverRegistrar with
  | .error p => .error p
  | .ok registrarType =>
    match reflectTypeOf handler with
    | .error p => .error p
    | .ok handlerType =>
      match registrarType with
      | .func ins outs =>
        match ins, outs with
        | [p0, p1], [] =>
          if p0.isPtrGrpcServer then
            match goImplements handlerType p1 with
            | .error p => .error p
            | .ok true =>
              .ok { listenAddress := listenAddress, handler := handler,
                    serverRegistrar := serverRegistrar, tlsConfig := tlsConfig }
            | .ok false => .error (.handlerDoesNotImplement p1 handlerType)
          else .error (.registrarFirstParamNotGrpcServer p0)
        | _, _ =>
          if ins.length = 2 then .error (.registrarBadNumOut outs.length)
          else .error (.registrarBadNumIn ins.length)
      | t => .error (.registrarNotFunc t.kind)

/-- The spec's four construction preconditions, stated from the spec's
words (§4.1): the registrar is a non-nil function value with exactly two
parameters and no results, its first parameter type is exactly the RPC
server instance type, its second parameter is an interface type, and the
(non-nil) handler's method set satisfies that interface. -/
def validArgs (handler serverRegistrar : GoIfaceValue) : Bool :=
  match serverRegistrar.type, handler.type with
  | some registrarType, some handlerType =>
    match registrarType with
    | .func ins outs =>
      ins.length = 2 && outs.length = 0 &&
      (match ins with
       | [p0, p1] =>
         p0.isPtrGrpcServer &&
         (match p1 with
          | .iface ms => ms.all (fun m => m ∈ handlerType.methodSet)
          | _ => false)
       | _ => false)
    | _ => false
  | _, _ => false

/-- A Go `error` value (the source only passes errors through, never
inspects them); `Option GoError` with `none` for a nil error. -/
structure GoError where
  msg : String
deriving DecidableEq, Repr

/-- Which branch of the `select` at lines 96-101 fires first: a value on
the external `signals` channel, or the serve outcome `e` on `errCh`
(`e = none` when `Serve` returned a nil error). -/
inductive Winner where
  | sig : Winner
  | srv (e : Option GoError) : Winner
deriving DecidableEq, Repr

/-- The external environment of one `Run` invocation: the outcome of
`net.Listen` (line 76; `some e` means binding failed with `e`) and, when
binding succeeds, the winner of the final select race. -/
structure RunEnv where
  bindResult : Option GoError
  winner : Winner
deriving DecidableEq, Repr

/-- The observable side-effecting steps of `Run`, in the order the source
performs them: binding the listener (line 76), `grpc.NewServer` with the
assembled options (line 85), the reflective registrar call (line 87),
starting the serve goroutine (lines 90-92), `close(ready)` (line 94),
blocking at the `select` (line 96), the select resolving with a winner,
and `server.GracefulStop()` (line 103). -/
inductive Event where
  | listen (addr : String)
  | newServer (opts : List ServerOption)
  | registrarCall
  | serveStart
  | closeReady
  | selectWait
  | selectResolved (w : Winner)
  | gracefulStop
deriving DecidableEq, Repr

/-- The server options assembled at lines 81-84: empty, plus
`grpc.Creds(credentials.NewTLS(s.tlsConfig))` when `s.tlsConfig` is
non-nil. -/
def serverOptions (s : grpcServerRunner) : List ServerOption :=
  match s.tlsConfig with
  | none => []
  | some c => [ServerOption.creds (NewTLS c)]

/-- The value of the local `err` variable after the select: left at the
nil it got from the successful `net.Listen` when the signal branch fires,
assigned the received serve outcome when the `errCh` branch fires. -/
def errOfWinner : Winner → Option GoError
  | .sig => none
  | .srv e => e

/-- Result of a `Run` invocation: the ordered event trace, the returned
error, and the receiver value after the call (the receiver is a value
copy, line 72, and the body never assigns to its fields). -/
structure RunOutput where
  trace : List Event
  result : Option GoError
  runner : grpcServerRunner

/-- `Run` (lines 72-105) as a function of the descriptor and the
environment. On bind failure it returns the bind error immediately
(lines 77-79). Otherwise it builds the options, constructs the server,
calls the registrar, starts the serve goroutine, closes `ready`, waits at
the select, and after the race resolves calls `GracefulStop` and returns
the `err` variable. -/
def Run (s : grpcServerRunner) (env : RunEnv) : RunOutput :=
  match env.bindResult with
  | some e =>
    { trace := [Event.listen s.listenAddress], result := some e, runner := s }
  | none =>
    { trace := [Event.listen s.listenAddress,
                Event.newServer (serverOptions s),
                Event.registrarCall,
                Event.serveStart,
                Event.closeReady,
                Event.selectWait,
                Event.selectResolved env.winner,
                Event.gracefulStop],
      result := errOfWinner env.winner, runner := s }

/-- `a` occurs strictly before `b` in the trace `t`. -/
def precedes (a b : Event) (t : List Event) : Prop :=
  ∃ l1 l2 l3, t = l1 ++ a :: l2 ++ b :: l3

/-- Recognizers for trace events, used to count occurrences. -/
def isListen : Event → Bool
  | .listen _ => true
  | _ => false

def isNewServer : Event → Bool
  | .newServer _ => true
  | _ => false

def isRegistrarCall : Event → Bool
  | .registrarCall => true
  | _ => false

def isServeStart : Event → Bool
  | .serveStart => true
  | _ => false

def isCloseReady : Event → Bool
  | .closeReady => true
  | _ => false

def isGracefulStop : Event → Bool
  | .gracefulStop => true
  | _ => false

/-- Program counter of the main goroutine in the region of lines 94-104:
blocked at the `select` (line 96), about to call `GracefulStop` with the
current value of `err` (line 103), or returned from `Run` with that value
(line 104). -/
inductive MainPC where
  | atSelect
  | atStop (e : Option GoError)
  | returned (e : Option GoError)
deriving DecidableEq, Repr

/-- State of the serve goroutine (lines 90-92): still blocked in
`server.Serve(lis)`; returned from `Serve` with outcome `e` and blocked
sending it on the unbuffered `errCh`; or the send completed. -/
inductive ServeState where
  | running
  | wantsSend (e : Option GoError)
  | sent (e : Option GoError)
deriving DecidableEq, Repr

/-- Global state of the race between the serve goroutine, the external
signal source and the main goroutine, with instrumentation counters:
completed sends and receives on `errCh`, and `GracefulStop` invocations.
`winner` records which select branch fired, once one has. -/
structure MState where
  main : MainPC
  serve : ServeState
  pendingSignals : Nat
  sends : Nat
  recvs : Nat
  stops : Nat
  winner : Option Winner
deriving DecidableEq, Repr

/-- The state as of `close(ready)` (line 94): main about to enter the
select, goroutine inside `Serve`, nothing delivered or counted yet. -/
def initialMState : MState :=
  { main := .atSelect, serve := .running, pendingSignals := 0,
    sends := 0, recvs := 0, stops := 0, winner := none }

/-- One interleaving step of the modelled region. The environment may
deliver a signal at any time; `Serve` may return at any time while
running (in particular after `GracefulStop`); an unbuffered-channel send
completes only by rendezvous with the main goroutine's select; the select
takes whichever enabled branch; after the select, main performs
`GracefulStop` and returns `err`. -/
inductive Step : MState → MState → Prop where
  | deliverSignal (s : MState) :
      Step s { s with pendingSignals := s.pendingSignals + 1 }
  | serveReturns (s : MState) (e : Option GoError) (h : s.serve = .running) :
      Step s { s with serve := .wantsSend e }
  | selectSignal (s : MState) (hm : s.main = .atSelect)
      (hp : 0 < s.pendingSignals) :
      Step s { s with main := .atStop none,
                      pendingSignals := s.pendingSignals - 1,
                      winner := some .sig }
  | selectServe (s : MState) (e : Option GoError) (hm : s.main = .atSelect)
      (hs : s.serve = .wantsSend e) :
      Step s { s with main := .atStop e, serve := .sent e,
                      sends := s.sends + 1, recvs := s.recvs + 1,
                      winner := some (.srv e) }
  | doStop (s : MState) (e : Option GoError) (hm : s.main = .atStop e) :
      Step s { s with main := .returned e, stops := s.stops + 1 }

/-- Reachability by a finite interleaving of steps. -/
inductive Reaches : MState → MState → Prop where
  | refl (s : MState) : Reaches s s
  | tail (s t u : MState) : Reaches s t → Step t u → Reaches s u

/-- Invariant of the race region: at most one completed send and one
completed receive on `errCh`; at most one `GracefulStop`; before the
select resolves nothing has been handed off or stopped; after it, the
`err` value main carries is exactly the recorded winner's outcome, and a
returned main has performed exactly one `GracefulStop`. -/
def MInv (s : MState) : Prop :=
  s.sends ≤ 1 ∧ s.recvs ≤ 1 ∧ s.stops ≤ 1 ∧
  (s.main = .atSelect → s.stops = 0 ∧ s.winner = none ∧
    s.sends = 0 ∧ s.recvs = 0) ∧
  (∀ e, s.main = .atStop e →
    s.stops = 0 ∧ ∃ w, s.winner = some w ∧ errOfWinner w = e) ∧
  (∀ e, s.main = .returned e →
    s.stops = 1 ∧ ∃ w, s.winner = some w ∧ errOfWinner w = e)

theorem step_preserves_MInv {s t : MState} (hs : MInv s) (h : Step s t) :
    MInv t := by
  obtain ⟨h1, h2, h3, h4, h5, h6⟩ := hs
  cases h with
  | deliverSignal =>
    exact ⟨h1, h2, h3, h4, h5, h6⟩
  | serveReturns e h =>
    exact ⟨h1, h2, h3, h4, h5, h6⟩
  | selectSignal hm hp =>
    obtain ⟨hst, hw, hsd, hrv⟩ := h4 hm
    refine ⟨h1, h2, h3, by simp, ?_, by simp⟩
    intro e he
    simp at he
    exact ⟨hst, .sig, by simp, by simp [errOfWinner, he]⟩
  | selectServe e hm hs' =>
    obtain ⟨hst, hw, hsd, hrv⟩ := h4 hm
    refine ⟨by simp [hsd], by simp [hrv], h3, by simp, ?_, by simp⟩
    intro e' he
    simp at he
    exact ⟨hst, .srv e, by simp, by simp [errOfWinner, he]⟩
  | doStop e hm =>
    obtain ⟨hst, w, hw, hew⟩ := h5 e hm
    refine ⟨h1, h2, by simp [hst], by simp, by simp, ?_⟩
    intro e' he
    simp at he
    subst he
    exact ⟨by simp [hst], w, by simp [hw], hew⟩

theorem reaches_MInv {s : MState} (h : Reaches initialMState s) : MInv s := by
  induction h with
  | refl =>
    refine ⟨by simp [initialMState], by simp [initialMState],
      by simp [initialMState], ?_, ?_, ?_⟩ <;>
      simp [initialMState, MState.mk.injEq]
  | tail _ _ _ hstep ih => exact step_preserves_MInv ih hstep

/-- Once main has returned, no step changes the returned value. -/
theorem step_preserves_returned {s t : MState} {e : Option GoError}
    (hr : s.main = .returned e) (h : Step s t) : t.main = .returned e := by
  cases h with
  | deliverSignal => exact hr
  | serveReturns e' h => exact hr
  | selectSignal hm hp => rw [hr] at hm; exact absurd hm (by simp)
  | selectServe e' hm hs' => rw [hr] at hm; exact absurd hm (by simp)
  | doStop e' hm => rw [hr] at hm; exact absurd hm (by simp)

/-- The receiver is a value copy (line 72) and `Run` never writes a field:
the descriptor after any `Run` invocation equals the descriptor before. -/
theorem Run_runner_eq (s : grpcServerRunner) (env : RunEnv) :
    (Run s env).runner = s := by
  unfold Run
  cases env.bindResult <;> rfl

theorem Run_trace_of_bind_ok (s : grpcServerRunner) (env : RunEnv)
    (h : env.bindResult = none) :
    (Run s env).trace = [Event.listen s.listenAddress,
      Event.newServer (serverOptions s), Event.registrarCall,
      Event.serveStart, Event.closeReady, Event.selectWait,
      Event.selectResolved env.winner, Event.gracefulStop] := by
  unfold Run
  rw [h]

theorem Run_result_of_bind_ok (s : grpcServerRunner) (env : RunEnv)
    (h : env.bindResult = none) :
    (Run s env).result = errOfWinner env.winner := by
  unfold Run
  rw [h]

/-- C2: when the bind succeeds and the serve goroutine's error wins the
select, `Run` returns exactly that error; `GracefulStop` is the last step
before returning (so the return happens after graceful stop); and the
trace holds a single listen and a single serve start, so the failed serve
is never retried. -/
theorem run_returns_serve_error (s : grpcServerRunner) (env : RunEnv)
    (e : GoError) (hbind : env.bindResult = none)
    (hwin : env.winner = Winner.srv (some e)) :
    (Run s env).result = some e ∧
    (Run s env).trace.getLast? = some Event.gracefulStop ∧
    precedes (Event.selectResolved env.winner) Event.gracefulStop
      (Run s env).trace ∧
    (Run s env).trace.countP isServeStart = 1 ∧
    (Run s env).trace.countP isListen = 1 := by
  rw [Run_result_of_bind_ok s env hbind, Run_trace_of_bind_ok s env hbind, hwin]
  refine ⟨rfl, rfl, ?_, rfl, rfl⟩
  exact ⟨[Event.listen s.listenAddress, Event.newServer (serverOptions s),
    Event.registrarCall, Event.serveStart, Event.closeReady,
    Event.selectWait], [], [], rfl⟩

theorem run_returns_serve_error_witness :
    (Run ⟨"addr", ⟨none⟩, ⟨none⟩, none⟩
        ⟨none, Winner.srv (some ⟨"listener closed"⟩)⟩).result =
      some ⟨"listener closed"⟩ :=
  (run_returns_serve_error ⟨"addr", ⟨none⟩, ⟨none⟩, none⟩
    ⟨none, Winner.srv (some ⟨"listener closed"⟩)⟩
    ⟨"listener closed"⟩ rfl rfl).1

/-- C3: when the bind succeeds and the external stop signal wins the
select, `Run` returns nil (`none`), and `GracefulStop` is the last step
before returning. -/
theorem run_stop_signal_returns_nil (s : grpcServerRunner) (env : RunEnv)
    (hbind : env.bindResult = none) (hwin : env.winner = Winner.sig) :
    (Run s env).result = none ∧
    (Run s env).trace.getLast? = some Event.gracefulStop ∧
    precedes (Event.selectResolved env.winner) Event.gracefulStop
      (Run s env).trace := by
  rw [Run_result_of_bind_ok s env hbind, Run_trace_of_bind_ok s env hbind, hwin]
  refine ⟨rfl, rfl, ?_⟩
  exact ⟨[Event.listen s.listenAddress, Event.newServer (serverOptions s),
    Event.registrarCall, Event.serveStart, Event.closeReady,
    Event.selectWait], [], [], rfl⟩

theorem run_stop_signal_returns_nil_witness :
    (Run ⟨"addr", ⟨none⟩, ⟨none⟩, none⟩ ⟨none, Winner.sig⟩).result = none :=
  (run_stop_signal_returns_nil ⟨"addr", ⟨none⟩, ⟨none⟩, none⟩
    ⟨none, Winner.sig⟩ rfl rfl).1

/-- C4: when `net.Listen` fails with error `e`, `Run` returns `e`
immediately: the trace is just the failed bind, so no server is
constructed, the registrar is not invoked, `GracefulStop` is not
performed and `ready` is never closed. -/
theorem run_bind_failure_immediate (s : grpcServerRunner) (env : RunEnv)
    (e : GoError) (hbind : env.bindResult = some e) :
    (Run s env).result = some e ∧
    (Run s env).trace = [Event.listen s.listenAddress] ∧
    (Run s env).trace.countP isNewServer = 0 ∧
    (Run s env).trace.countP isRegistrarCall = 0 ∧
    (Run s env).trace.countP isGracefulStop = 0 ∧
    (Run s env).trace.countP isCloseReady = 0 := by
  unfold Run
  rw [hbind]
  exact ⟨rfl, rfl, rfl, rfl, rfl, rfl⟩

theorem run_bind_failure_immediate_witness :
    (Run ⟨"addr", ⟨none⟩, ⟨none⟩, none⟩
        ⟨some ⟨"address already in use"⟩, Winner.sig⟩).result =
      some ⟨"address already in use"⟩ ∧
    (Run ⟨"addr", ⟨none⟩, ⟨none⟩, none⟩
        ⟨some ⟨"address already in use"⟩, Winner.sig⟩).trace.countP
      isCloseReady = 0 := by
  have h := run_bind_failure_immediate ⟨"addr", ⟨none⟩, ⟨none⟩, none⟩
    ⟨some ⟨"address already in use"⟩, Winner.sig⟩
    ⟨"address already in use"⟩ rfl
  exact ⟨h.1, h.2.2.2.2.2⟩

/-- C5: in every `Run` invocation that reaches the wait step (the bind
succeeded), `close(ready)` happens strictly after the listener bind, the
registrar invocation and the start of the serve goroutine, and strictly
before `Run` blocks at the select. -/
theorem run_ready_ordering (s : grpcServerRunner) (env : RunEnv)
    (hbind : env.bindResult = none) :
    precedes (Event.listen s.listenAddress) Event.closeReady
      (Run s env).trace ∧
    precedes Event.registrarCall Event.closeReady (Run s env).trace ∧
    precedes Event.serveStart Event.closeReady (Run s env).trace ∧
    precedes Event.closeReady Event.selectWait (Run s env).trace := by
  rw [Run_trace_of_bind_ok s env hbind]
  refine ⟨⟨[], [Event.newServer (serverOptions s), Event.registrarCall,
      Event.serveStart], [Event.selectWait,
      Event.selectResolved env.winner, Event.gracefulStop], rfl⟩, ?_, ?_, ?_⟩
  · exact ⟨[Event.listen s.listenAddress, Event.newServer (serverOptions s)],
      [Event.serveStart], [Event.selectWait, Event.selectResolved env.winner,
      Event.gracefulStop], rfl⟩
  · exact ⟨[Event.listen s.listenAddress, Event.newServer (serverOptions s),
      Event.registrarCall], [], [Event.selectWait,
      Event.selectResolved env.winner, Event.gracefulStop], rfl⟩
  · exact ⟨[Event.listen s.listenAddress, Event.newServer (serverOptions s),
      Event.registrarCall, Event.serveStart], [],
      [Event.selectResolved env.winner, Event.gracefulStop], rfl⟩

theorem run_ready_ordering_witness :
    precedes Event.closeReady Event.selectWait
      (Run ⟨"addr", ⟨none⟩, ⟨none⟩, none⟩ ⟨none, Winner.sig⟩).trace :=
  (run_ready_ordering ⟨"addr", ⟨none⟩, ⟨none⟩, none⟩
    ⟨none, Winner.sig⟩ rfl).2.2.2

/-- C7: in every `Run` invocation that reaches the wait step,
`GracefulStop` appears exactly once in the trace, and strictly after the
select resolves, whichever branch won. -/
theorem run_graceful_stop_once (s : grpcServerRunner) (env : RunEnv)
    (hbind : env.bindResult = none) :
    (Run s env).trace.countP isGracefulStop = 1 ∧
    precedes (Event.selectResolved env.winner) Event.gracefulStop
      (Run s env).trace := by
  rw [Run_trace_of_bind_ok s env hbind]
  refine ⟨rfl, ?_⟩
  exact ⟨[Event.listen s.listenAddress, Event.newServer (serverOptions s),
    Event.registrarCall, Event.serveStart, Event.closeReady,
    Event.selectWait], [], [], rfl⟩

theorem run_graceful_stop_once_witness :
    (Run ⟨"addr", ⟨none⟩, ⟨none⟩, none⟩
      ⟨none, Winner.srv (some ⟨"fail"⟩)⟩).trace.countP isGracefulStop = 1 :=
  (run_graceful_stop_once ⟨"addr", ⟨none⟩, ⟨none⟩, none⟩
    ⟨none, Winner.srv (some ⟨"fail"⟩)⟩ rfl).1

/-- C8: the server options `Run` assembles are exactly one TLS-credential
option when `tlsConfig` is set and none otherwise, and the server is
constructed with exactly those options. -/
theorem run_tls_server_options (s : grpcServerRunner) (env : RunEnv) :
    (∀ c, s.tlsConfig = some c →
      serverOptions s = [ServerOption.creds (NewTLS c)]) ∧
    (s.tlsConfig = none → serverOptions s = []) ∧
    (env.bindResult = none →
      Event.newServer (serverOptions s) ∈ (Run s env).trace) := by
  refine ⟨?_, ?_, ?_⟩
  · intro c hc
    unfold serverOptions
    rw [hc]
  · intro hc
    unfold serverOptions
    rw [hc]
  · intro hbind
    rw [Run_trace_of_bind_ok s env hbind]
    simp

theorem run_tls_server_options_witness :
    serverOptions ⟨"addr", ⟨none⟩, ⟨none⟩, some ⟨7⟩⟩ =
      [ServerOption.creds (NewTLS ⟨7⟩)] ∧
    serverOptions ⟨"addr", ⟨none⟩, ⟨none⟩, none⟩ = [] ∧
    Event.newServer (serverOptions ⟨"addr", ⟨none⟩, ⟨none⟩, some ⟨7⟩⟩) ∈
      (Run ⟨"addr", ⟨none⟩, ⟨none⟩, some ⟨7⟩⟩ ⟨none, Winner.sig⟩).trace :=
  ⟨(run_tls_server_options ⟨"addr", ⟨none⟩, ⟨none⟩, some ⟨7⟩⟩
      ⟨none, Winner.sig⟩).1 ⟨7⟩ rfl,
   (run_tls_server_options ⟨"addr", ⟨none⟩, ⟨none⟩, none⟩
      ⟨none, Winner.sig⟩).2.1 rfl,
   (run_tls_server_options ⟨"addr", ⟨none⟩, ⟨none⟩, some ⟨7⟩⟩
      ⟨none, Winner.sig⟩).2.2 rfl⟩

/-- On arguments satisfying the spec's preconditions, the constructor
takes the success path and returns the descriptor built from exactly its
four arguments (lines 64-69). -/
theorem newGRPCServer_ok_of_valid (a : String) (t : Option TLSConf)
    (hdl reg : GoIfaceValue) (hv : validArgs hdl reg = true) :
    NewGRPCServer a t hdl reg = Except.ok
      { listenAddress := a, handler := hdl, serverRegistrar := reg,
        tlsConfig := t } := by
  obtain ⟨rt⟩ := reg
  obtain ⟨ht⟩ := hdl
  unfold validArgs at hv
  cases rt with
  | none => simp at hv
  | some rt =>
    cases ht with
    | none => simp at hv
    | some ht =>
      cases rt with
      | ptrGrpcServer => simp at hv
      | iface ms => simp at hv
      | named n ms => simp at hv
      | func ins outs =>
        cases ins with
        | nil => simp at hv
        | cons p0 ins' =>
          cases ins' with
          | nil => simp at hv
          | cons p1 ins'' =>
            cases ins'' with
            | cons p2 ins3 => simp at hv
            | nil =>
              cases outs with
              | cons o outs' => simp at hv
              | nil =>
                simp at hv
                obtain ⟨hp0, hp1⟩ := hv
                cases p1 with
                | ptrGrpcServer => simp at hp1
                | func i o => simp at hp1
                | named n ms => simp at hp1
                | iface ms =>
                  simp at hp1
                  cases p0 with
                  | func i o => simp [GoType.isPtrGrpcServer] at hp0
                  | iface m => simp [GoType.isPtrGrpcServer] at hp0
                  | named n m => simp [GoType.isPtrGrpcServer] at hp0
                  | ptrGrpcServer =>
                    have hall : (ms.all fun m =>
                        decide (m ∈ ht.methodSet)) = true := by
                      simp only [List.all_eq_true, decide_eq_true_eq]
                      exact hp1
                    unfold NewGRPCServer reflectTypeOf goImplements
                    simp [GoType.isPtrGrpcServer, hall]

/-- Conversely, whenever the constructor reaches the success path the
spec's preconditions held: every check the source performs rules out one
way of violating them. -/
theorem valid_of_newGRPCServer_ok (a : String) (t : Option TLSConf)
    (hdl reg : GoIfaceValue) (d : grpcServerRunner)
    (h : NewGRPCServer a t hdl reg = Except.ok d) :
    validArgs hdl reg = true := by
  obtain ⟨rt⟩ := reg
  obtain ⟨ht⟩ := hdl
  unfold NewGRPCServer reflectTypeOf at h
  cases rt with
  | none => simp at h
  | some rt =>
    cases ht with
    | none => simp at h
    | some ht =>
      cases rt with
      | ptrGrpcServer => simp at h
      | iface ms => simp at h
      | named n ms => simp at h
      | func ins outs =>
        cases ins with
        | nil => simp at h
        | cons p0 ins' =>
          cases ins' with
          | nil => simp at h
          | cons p1 ins'' =>
            cases ins'' with
            | cons p2 ins3 => simp at h
            | nil =>
              cases outs with
              | cons o outs' => simp at h
              | nil =>
                cases p0 with
                | func i o => simp [GoType.isPtrGrpcServer] at h
                | iface m => simp [GoType.isPtrGrpcServer] at h
                | named n m => simp [GoType.isPtrGrpcServer] at h
                | ptrGrpcServer =>
                  cases p1 with
                  | ptrGrpcServer => simp [GoType.isPtrGrpcServer, goImplements] at h
                  | func i o => simp [GoType.isPtrGrpcServer, goImplements] at h
                  | named n m => simp [GoType.isPtrGrpcServer, goImplements] at h
                  | iface ms =>
                    simp [GoType.isPtrGrpcServer, goImplements] at h
                    cases hall : ms.all (fun m => m ∈ ht.methodSet) with
                    | false => rw [hall] at h; simp at h
                    | true =>
                      unfold validArgs
                      simp [GoType.isPtrGrpcServer, hall]

/-- C1: `NewGRPCServer` panics (a fatal, pre-network abort) if and only
if one of the spec's four construction preconditions fails; on every
input satisfying all of them it succeeds and returns a descriptor. -/
theorem newGRPCServer_panics_iff_invalid (a : String) (t : Option TLSConf)
    (hdl reg : GoIfaceValue) :
    (∃ d, NewGRPCServer a t hdl reg = Except.ok d) ↔
      validArgs hdl reg = true := by
  constructor
  · rintro ⟨d, hd⟩
    exact valid_of_newGRPCServer_ok a t hdl reg d hd
  · intro hv
    exact ⟨_, newGRPCServer_ok_of_valid a t hdl reg hv⟩

theorem newGRPCServer_panics_iff_invalid_witness :
    ∃ d, NewGRPCServer "127.0.0.1:50051" none
      ⟨some (GoType.named "server" ["Ping"])⟩
      ⟨some (GoType.func [GoType.ptrGrpcServer, GoType.iface ["Ping"]] [])⟩ =
      Except.ok d :=
  (newGRPCServer_panics_iff_invalid "127.0.0.1:50051" none
    ⟨some (GoType.named "server" ["Ping"])⟩
    ⟨some (GoType.func [GoType.ptrGrpcServer, GoType.iface ["Ping"]] [])⟩).mpr
    rfl

/-- C9: on valid input the returned descriptor's four fields are exactly
the four arguments (construction in the model is a pure function, with no
network or I/O effects), and the descriptor is immutable: `Run` operates
on a value copy and leaves every field unchanged. -/
theorem newGRPCServer_fields_and_immutable (a : String) (t : Option TLSConf)
    (hdl reg : GoIfaceValue) (hv : validArgs hdl reg = true) :
    NewGRPCServer a t hdl reg = Except.ok
      { listenAddress := a, handler := hdl, serverRegistrar := reg,
        tlsConfig := t } ∧
    ∀ env, (Run ⟨a, hdl, reg, t⟩ env).runner = ⟨a, hdl, reg, t⟩ :=
  ⟨newGRPCServer_ok_of_valid a t hdl reg hv,
   fun env => Run_runner_eq _ env⟩

theorem newGRPCServer_fields_and_immutable_witness :
    NewGRPCServer "127.0.0.1:50051" (some ⟨3⟩)
      ⟨some (GoType.named "server" ["Ping"])⟩
      ⟨some (GoType.func [GoType.ptrGrpcServer, GoType.iface ["Ping"]] [])⟩ =
      Except.ok
        { listenAddress := "127.0.0.1:50051",
          handler := ⟨some (GoType.named "server" ["Ping"])⟩,
          serverRegistrar := ⟨some (GoType.func
            [GoType.ptrGrpcServer, GoType.iface ["Ping"]] [])⟩,
          tlsConfig := some ⟨3⟩ } :=
  (newGRPCServer_fields_and_immutable "127.0.0.1:50051" (some ⟨3⟩)
    ⟨some (GoType.named "server" ["Ping"])⟩
    ⟨some (GoType.func [GoType.ptrGrpcServer, GoType.iface ["Ping"]] [])⟩
    rfl).1

/-- C10: a nil registrar, or a nil handler, makes the constructor panic
via `reflect.Value.Type` on the zero `reflect.Value` (lines 35-36),
before any network action and before any of the four documented
`log.Panicf` shape checks: the resulting panic is distinct from every
documented shape-check message. -/
theorem newGRPCServer_nil_args_reflect_panic (a : String)
    (t : Option TLSConf) (hdl : GoIfaceValue) (rt : GoType) :
    NewGRPCServer a t hdl ⟨none⟩ =
      Except.error PanicMsg.reflectZeroValueType ∧
    NewGRPCServer a t ⟨none⟩ ⟨some rt⟩ =
      Except.error PanicMsg.reflectZeroValueType ∧
    (∀ k, PanicMsg.reflectZeroValueType ≠ PanicMsg.registrarNotFunc k) ∧
    (∀ n, PanicMsg.reflectZeroValueType ≠ PanicMsg.registrarBadNumIn n) ∧
    (∀ n, PanicMsg.reflectZeroValueType ≠ PanicMsg.registrarBadNumOut n) ∧
    (∀ u, PanicMsg.reflectZeroValueType ≠
      PanicMsg.registrarFirstParamNotGrpcServer u) ∧
    (∀ u v, PanicMsg.reflectZeroValueType ≠
      PanicMsg.handlerDoesNotImplement u v) := by
  refine ⟨rfl, rfl, ?_, ?_, ?_, ?_, ?_⟩ <;> intros <;> simp

/-- C6: in every interleaving of the select-race region, the internal
error conduit is written at most once and read at most once,
`GracefulStop` runs at most once (exactly once whenever `Run` returns),
the returned value is exactly the outcome of whichever event won the
select, and once `Run` has returned no later event (a late signal or a
late serve outcome) changes that: there is no double return. -/
theorem select_race_single_handoff (s : MState)
    (h : Reaches initialMState s) :
    s.sends ≤ 1 ∧ s.recvs ≤ 1 ∧ s.stops ≤ 1 ∧
    (∀ e, s.main = MainPC.returned e →
      s.stops = 1 ∧ (∃ w, s.winner = some w ∧ errOfWinner w = e) ∧
      ∀ u, Step s u → u.main = MainPC.returned e) := by
  obtain ⟨h1, h2, h3, _, _, h6⟩ := reaches_MInv h
  refine ⟨h1, h2, h3, ?_⟩
  intro e he
  obtain ⟨hst, w, hw, hew⟩ := h6 e he
  exact ⟨hst, ⟨w, hw, hew⟩, fun u hu => step_preserves_returned he hu⟩

/-- A state in which `Run` has returned after a stop signal won the race,
reached by delivering one signal, resolving the select on the signal
branch, and performing the graceful stop. -/
def raceWitnessState : MState :=
  { main := .returned none, serve := .running, pendingSignals := 0,
    sends := 0, recvs := 0, stops := 1, winner := some .sig }

theorem select_race_single_handoff_witness :
    raceWitnessState.sends ≤ 1 ∧ raceWitnessState.recvs ≤ 1 ∧
    raceWitnessState.stops ≤ 1 ∧
    (∀ e, raceWitnessState.main = MainPC.returned e →
      raceWitnessState.stops = 1 ∧
      (∃ w, raceWitnessState.winner = some w ∧ errOfWinner w = e) ∧
      ∀ u, Step raceWitnessState u → u.main = MainPC.returned e) :=
  select_race_single_handoff raceWitnessState
    (Reaches.tail _ _ _
      (Reaches.tail _ _ _
        (Reaches.tail _ _ _ (Reaches.refl initialMState)
          (Step.deliverSignal initialMState))
        (Step.selectSignal _ rfl (by decide)))
      (Step.doStop _ none rfl))
